import Mathlib

/-!
Shallow embedding of the interactive execution engine in `src/executor.ts`
(tslab-style executor): export namespace proxy, module cache with side
outputs, declaration state, cancellation controller and the `execute`
orchestration, together with proofs of the specification claims.
-/

namespace Executor

/-- JavaScript runtime values, abstracted to the distinctions the executor
observes: nullish-ness (the `!= null` check), truthiness (the `if (mod)`
check), and equality on concrete data. Objects are identified by an id;
errors carry their message. -/
inductive JSValue where
  | null
  | undefined
  | bool (b : Bool)
  | num (n : Int)
  | str (s : String)
  | obj (id : Nat)
  | err (msg : String)
deriving DecidableEq, Repr

/-- JavaScript loose `v == null`: true exactly for `null` and `undefined`.
This is the "nothing" sentinel test used at `exports[v] != null`. -/
def JSValue.isNullish : JSValue → Bool
  | .null => true
  | .undefined => true
  | _ => false

/-- JavaScript truthiness, as used by `if (mod) return mod;`. -/
def JSValue.truthy : JSValue → Bool
  | .null => false
  | .undefined => false
  | .bool b => b
  | .num n => n != 0
  | .str s => s != ""
  | .obj _ => true
  | .err _ => true

/-- A string-valued optional field read with JavaScript truthiness:
`undefined`/absent and the empty string are falsy. Used for `meta.module`,
`converted.output` and `converted.lastExpressionVar`. -/
def strTruthy (o : Option String) : Bool := o.getD "" != ""

/-! ### String-keyed association maps

JavaScript `Map` objects and plain objects keyed by strings are embedded as
association lists with first-match lookup, in-place overwrite and full
deletion. -/

/-- Lookup in a string-keyed association list (first match). -/
def mapGet {α : Type} : List (String × α) → String → Option α
  | [], _ => none
  | (k, v) :: rest, key => if k = key then some v else mapGet rest key

/-- Set/overwrite a key: replaces the first existing entry in place,
otherwise appends at the end (JS `Map.set` / property-assignment order). -/
def mapSet {α : Type} : List (String × α) → String → α → List (String × α)
  | [], key, v => [(key, v)]
  | (k, w) :: rest, key, v =>
    if k = key then (k, v) :: rest else (k, w) :: mapSet rest key v

/-- Delete every entry for a key (JS `Map.delete` / `delete obj[k]`). -/
def mapDelete {α : Type} : List (String × α) → String → List (String × α)
  | [], _ => []
  | (k, v) :: rest, key =>
    if k = key then mapDelete rest key else (k, v) :: mapDelete rest key

theorem mapGet_mapSet_self {α : Type} (m : List (String × α)) (k : String) (v : α) :
    mapGet (mapSet m k v) k = some v := by
  induction m with
  | nil => simp [mapGet, mapSet]
  | cons hd tl ih =>
    obtain ⟨k', v'⟩ := hd
    by_cases h : k' = k
    · simp [mapGet, mapSet, h]
    · simp [mapGet, mapSet, h, ih]

theorem mapGet_mapSet_ne {α : Type} (m : List (String × α)) (k q : String) (v : α)
    (h : q ≠ k) : mapGet (mapSet m k v) q = mapGet m q := by
  induction m with
  | nil => simp [mapGet, mapSet, Ne.symm h]
  | cons hd tl ih =>
    obtain ⟨k', v'⟩ := hd
    by_cases hk : k' = k
    · subst hk
      simp [mapGet, mapSet, Ne.symm h]
    · simp only [mapSet, if_neg hk]
      by_cases hq : k' = q
      · simp [mapGet, hq]
      · simp [mapGet, hq, ih]

theorem mapGet_mapDelete_self {α : Type} (m : List (String × α)) (k : String) :
    mapGet (mapDelete m k) k = none := by
  induction m with
  | nil => simp [mapGet, mapDelete]
  | cons hd tl ih =>
    obtain ⟨k', v'⟩ := hd
    by_cases h : k' = k
    · simp [mapDelete, h, ih]
    · simp [mapDelete, mapGet, h, ih]

theorem mapGet_mapDelete_ne {α : Type} (m : List (String × α)) (k q : String)
    (h : q ≠ k) : mapGet (mapDelete m k) q = mapGet m q := by
  induction m with
  | nil => simp [mapDelete]
  | cons hd tl ih =>
    obtain ⟨k', v'⟩ := hd
    by_cases hk : k' = k
    · subst hk
      simp [mapDelete, mapGet, Ne.symm h, ih]
    · simp only [mapDelete, if_neg hk]
      by_cases hq : k' = q
      · simp [mapGet, hq]
      · simp [mapGet, hq, ih]

/-! ### Export Namespace (`createExports`, lines 153-170)

The proxy target is a plain object; the `defineProperty` trap is the only
interception, so reads, assignments and deletes behave like a plain
string-keyed map. -/

/-- The Export Namespace: ordered mapping of binding name to current value. -/
def ExportMap : Type := List (String × JSValue)

/-- Read a binding (`exports[name]`), absent reads as `undefined` downstream. -/
def getProp (ex : ExportMap) (name : String) : Option JSValue := mapGet ex name

/-- Set/overwrite a binding (`exports[name] = v`). -/
def setProp (ex : ExportMap) (name : String) (v : JSValue) : ExportMap :=
  mapSet ex name v

/-- Remove a binding (`delete exports[name]`). -/
def deleteProp (ex : ExportMap) (name : String) : ExportMap := mapDelete ex name

/-- A property descriptor as seen by the `defineProperty` trap: `get` holds
the result of invoking the getter when one is present (the trap calls
`attrs.get()`); `value` is `attrs.value` (defaulting to `undefined` when the
descriptor carries none). -/
structure PropertyDescriptor where
  get : Option JSValue
  value : JSValue
deriving DecidableEq, Repr

/-- The value the trap ends up storing: the getter result when a getter is
present, else the plain `value` field. -/
def descriptorValue (attrs : PropertyDescriptor) : JSValue :=
  match attrs.get with
  | some v => v
  | none => attrs.value

/-- The `defineProperty` proxy trap of `createExports` (lines 158-168):
`__esModule` is accepted but ignored; any other name is written through to
the backing object (so named imports stay rewritable); the trap always
reports success. Returns the updated namespace and the trap's boolean. -/
def defineProperty (ex : ExportMap) (prop : String) (attrs : PropertyDescriptor) :
    ExportMap × Bool :=
  if prop = "__esModule" then
    (ex, true)
  else
    match attrs.get with
    | some v => (setProp ex prop v, true)
    | none => (setProp ex prop attrs.value, true)

/-! ### Module Cache and the wrapped `require` (lines 62-122)

Two caches: `sideOutputs` maps an absolute path to recorded source text,
`sideModules` maps it to a compiled module instance. The instance record is
instrumented with the ghost field `compiledFrom`, the exact source text that
was passed to `_compile`, so the coherence invariant can be stated. -/

/-- One generated side module reported by the compiler: a path/data pair. -/
structure SideOutput where
  path : String
  data : String
deriving DecidableEq, Repr

/-- A compiled module instance (the `NodeModule` stored in `sideModules`).
`compiledFrom` is ghost instrumentation recording the source text that
`_compile` received; `exports` is the module's export value. -/
structure NodeModuleInst where
  compiledFrom : String
  exports : JSValue
deriving DecidableEq, Repr

/-- The two-cache state of the module loader. -/
structure ModuleCacheState where
  sideOutputs : List (String × String)
  sideModules : List (String × NodeModuleInst)
deriving DecidableEq, Repr

/-- Recording one side output (one iteration of `updateSideOutputs`, lines
116-121): drop any cached compiled instance for the path, then overwrite the
stored source. The `has` guard in the source is redundant since deleting an
absent key is the identity. -/
def updateSideOutput1 (st : ModuleCacheState) (out : SideOutput) : ModuleCacheState :=
  { sideOutputs := mapSet st.sideOutputs out.path out.data,
    sideModules := mapDelete st.sideModules out.path }

/-- `updateSideOutputs` (lines 115-122): record each reported side output in
order. -/
def updateSideOutputs (st : ModuleCacheState) (outs : List SideOutput) : ModuleCacheState :=
  outs.foldl updateSideOutput1 st

/-- Model of Node `path.extname` for POSIX-style paths: the suffix of the
basename from its last dot, or the empty string when the basename has no dot
or only a leading dot (the `.` / `..` basenames are not distinguished). -/
def extname (p : String) : String :=
  let b := (p.toList.reverse.takeWhile (fun c => c ≠ '/')).reverse
  let suffix := b.reverse.takeWhile (fun c => c ≠ '.')
  if suffix.length = b.length then ""
  else if suffix.length + 1 = b.length then ""
  else String.mk ('.' :: suffix.reverse)

/-- The environment the wrapped `require` closes over: the path-join helper
from `tspath` (kept abstract, it is not part of the embedded file) and the
effect of `Module._compile` on a recorded source text, summarized as the
exports value the compiled module ends up with. -/
structure RequireEnv where
  normalizeJoin : String → String → String
  compileModule : String → JSValue

/-- Filename resolution at the head of `requireFromSideOutputs` (lines
69-72): join the specifier to the importing directory and append the default
`.js` extension exactly when the path has none. -/
def resolveFilename (env : RequireEnv) (dirname id : String) : String :=
  let filename := env.normalizeJoin dirname id
  if extname filename = "" then filename ++ ".js" else filename

/-- `requireFromSideOutputs` (lines 68-90): return the cached instance's
exports if present; otherwise, if no source is recorded, return `null`;
otherwise compile the recorded source into a fresh module instance, cache
it, and return its exports. Nested imports performed during `_compile` are
further applications of this same operation. -/
def requireFromSideOutputs (env : RequireEnv) (dirname : String)
    (st : ModuleCacheState) (id : String) : ModuleCacheState × JSValue :=
  let filename := resolveFilename env dirname id
  match mapGet st.sideModules filename with
  | some cached => (st, cached.exports)
  | none =>
    match mapGet st.sideOutputs filename with
    | none => (st, .null)
    | some src =>
      let mod : NodeModuleInst := { compiledFrom := src, exports := env.compileModule src }
      ({ st with sideModules := mapSet st.sideModules filename mod }, mod.exports)

/-- Outcome of one call through the `require` proxy's `apply` trap. -/
inductive RequireResult where
  | tslabExports
  | value (v : JSValue)
  | host (arg : String)
deriving DecidableEq, Repr

/-- The `apply` trap of the wrapped `require` for a single string argument
(lines 94-108): the literal `tslab` specifier short-circuits to the engine's
own interface; otherwise the side-output lookup runs, and its result is
returned when truthy, else the original `require` is invoked with the same
argument. -/
def requireApplySingle (env : RequireEnv) (dirname : String)
    (st : ModuleCacheState) (arg : String) : ModuleCacheState × RequireResult :=
  if arg = "tslab" then
    (st, .tslabExports)
  else
    let r := requireFromSideOutputs env dirname st arg
    if r.2.truthy then (r.1, .value r.2) else (r.1, .host arg)

/-- Coherence invariant of the two caches: every cached compiled instance
was compiled from the source text currently recorded for its path. -/
def CacheInv (st : ModuleCacheState) : Prop :=
  ∀ p m, mapGet st.sideModules p = some m →
    mapGet st.sideOutputs p = some m.compiledFrom

/-! ### Cancellation Controller (lines 136-151)

`interruptPromise` instances are identified by a generation number: the
currently armed promise is `generation`; `fired` lists the generations whose
promise has been rejected with the distinguished interrupt error. -/

/-- The cancellation controller state: the armed `interruptPromise`
generation and the generations already fired. -/
structure CancellationController where
  generation : Nat
  fired : List Nat
deriving DecidableEq, Repr

/-- Initial controller state: `resetInterruptPromise()` has armed generation
0 and nothing has fired. -/
def initController : CancellationController := { generation := 0, fired := [] }

/-- `interrupt()` (lines 148-151): reject the armed promise with the
distinguished interrupt error (`rejectInterruptPromise(interrupted)`), then
arm a fresh one (`resetInterruptPromise()`). A total function: it never
throws, and the rejected promise already carries a no-op `catch` handler so
no unhandled rejection arises. -/
def interrupt (c : CancellationController) : CancellationController :=
  { generation := c.generation + 1, fired := c.generation :: c.fired }

/-- Controller well-formedness: only generations older than the armed one
have fired (the armed promise is still pending). -/
def ControllerWF (c : CancellationController) : Prop :=
  ∀ g ∈ c.fired, g < c.generation

/-! ### Execution Engine state and `execute` (lines 178-233) -/

/-- The distinguished cancellation error `new Error('Interrupted
asynchronously')` (line 136). -/
def interruptedError : JSValue := .err "Interrupted asynchronously"

/-- One event written to the output sink: `console.log` of a displayed
value, `console.error` of a runtime value, or `console.error` of a formatted
diagnostic line. -/
inductive OutputEvent where
  | log (v : JSValue)
  | errVal (v : JSValue)
  | errDiag (line : String)
deriving DecidableEq, Repr

/-- Whether an event went to the error channel rather than normal output. -/
def OutputEvent.isErrorChannel : OutputEvent → Bool
  | .log _ => false
  | .errVal _ => true
  | .errDiag _ => true

/-- A compiler diagnostic as consumed by `printDiagnostics`. -/
structure Diagnostic where
  fileName : Option String
  startLine : Nat
  startCharacter : Nat
  messageText : String
deriving DecidableEq, Repr

/-- The line `printDiagnostics` formats for one diagnostic (line 174):
`'%s%d:%d - %s'` with the optional file name (plus a space) and one-based
position. -/
def formatDiagnostic (d : Diagnostic) : String :=
  (if strTruthy d.fileName then d.fileName.getD "" ++ " " else "")
    ++ toString (d.startLine + 1) ++ ":" ++ toString (d.startCharacter + 1)
    ++ " - " ++ d.messageText

/-- `printDiagnostics` (lines 172-176): one error-channel write per
diagnostic, in order. -/
def printDiagnostics (ds : List Diagnostic) : List OutputEvent :=
  ds.map (fun d => .errDiag (formatDiagnostic d))

/-- The result of `convert` as consumed by `execute`: optional fields use
`Option`, with JavaScript truthiness applied where the source applies it. -/
structure ConvertResult where
  output : Option String
  declOutput : Option String
  diagnostics : List Diagnostic
  sideOutputs : Option (List SideOutput)
  hasToplevelAwait : Bool
  lastExpressionVar : Option String

/-- Target environment reported by `getCodeMetadata`. -/
inductive Mode where
  | node
  | browser
deriving DecidableEq, Repr

/-- The classifier output consumed by `execute`: the `@module` name if any
(JavaScript-truthy test) and the target environment. -/
structure CodeMetadata where
  module : Option String
  mode : Mode

/-- Result of invoking the wrapped snippet body synchronously: normal
completion or a thrown value. Mutations the body made to the Export
Namespace persist in either case. -/
inductive BodyResult where
  | ok
  | throws (e : JSValue)

/-- How `Promise.race([promise, interruptPromise])` settles for a
top-level-await body: the body's completion resolves first (carrying the
further namespace mutations the async tail performed), it rejects first, or
the cancellation signal fires first. -/
inductive AsyncOutcome where
  | resolves (eff : ExportMap → ExportMap)
  | rejects (eff : ExportMap → ExportMap) (e : JSValue)
  | interruptedFirst

/-- Everything the collaborators and the realm contribute to one `execute`
call: the classifier result, what `addModule` would report, what `convert`
returns, the synchronous effect and outcome of invoking the wrapped body,
and how an awaited completion settles. -/
structure SnippetBehavior where
  meta : CodeMetadata
  addModuleDiags : List Diagnostic
  converted : ConvertResult
  runBody : ExportMap → ExportMap × BodyResult
  asyncOutcome : AsyncOutcome

/-- The engine's mutable state: module caches, the Declaration State
(`prevDecl`) and the Export Namespace. -/
structure ExecutorState where
  cache : ModuleCacheState
  prevDecl : String
  exports : ExportMap

/-- Merging of compiler side outputs at the head of `execute` (lines
191-193): applied only when `converted.sideOutputs` is present. -/
def mergeSideOutputs (st : ExecutorState) (c : ConvertResult) : ExecutorState :=
  match c.sideOutputs with
  | some outs => { st with cache := updateSideOutputs st.cache outs }
  | none => st

/-- The success tail of `execute` (lines 226-232): merge the declaration
output, then, when a trailing-expression binding is named and its current
value is not nullish, remove the binding and write the value to normal
output. -/
def finishSuccess (st : ExecutorState) (c : ConvertResult) :
    ExecutorState × List OutputEvent × Bool :=
  let st1 : ExecutorState := { st with prevDecl := c.declOutput.getD "" }
  if strTruthy c.lastExpressionVar then
    let v := c.lastExpressionVar.getD ""
    let ret := (getProp st1.exports v).getD .undefined
    if ret.isNullish then (st1, [], true)
    else ({ st1 with exports := deleteProp st1.exports v }, [.log ret], true)
  else (st1, [], true)

/-- `execute` (lines 178-233): module registration path, browser
display-only path, side-output merge, diagnostics path, declaration-only
path, body invocation with synchronous catch, the race of a top-level-await
completion against the cancellation signal, and the success tail. Returns
the updated state, the sink events in order, and the boolean result. -/
def execute (st : ExecutorState) (b : SnippetBehavior) :
    ExecutorState × List OutputEvent × Bool :=
  if strTruthy b.meta.module then
    (st, printDiagnostics b.addModuleDiags, true)
  else if b.meta.mode = .browser then
    (st, [], true)
  else
    let st1 := mergeSideOutputs st b.converted
    if b.converted.diagnostics.length > 0 then
      (st1, printDiagnostics b.converted.diagnostics, false)
    else if strTruthy b.converted.output = false then
      ({ st1 with prevDecl := b.converted.declOutput.getD "" }, [], true)
    else
      match b.runBody st1.exports with
      | (ex1, .throws e) => ({ st1 with exports := ex1 }, [.errVal e], false)
      | (ex1, .ok) =>
        let st2 : ExecutorState := { st1 with exports := ex1 }
        if b.converted.hasToplevelAwait then
          match b.asyncOutcome with
          | .rejects eff e =>
            ({ st2 with exports := eff st2.exports }, [.errVal e], false)
          | .interruptedFirst => (st2, [.errVal interruptedError], false)
          | .resolves eff =>
            finishSuccess { st2 with exports := eff st2.exports } b.converted
        else
          finishSuccess st2 b.converted

/-- `reset` (lines 245-250): clear the Declaration State and delete every
own property of the Export Namespace; the module caches are untouched. -/
def reset (st : ExecutorState) : ExecutorState :=
  { st with prevDecl := "", exports := ([] : ExportMap) }

/-! ### Supporting lemmas -/

theorem mergeSideOutputs_exports (st : ExecutorState) (c : ConvertResult) :
    (mergeSideOutputs st c).exports = st.exports := by
  unfold mergeSideOutputs
  cases c.sideOutputs <;> rfl

theorem mergeSideOutputs_prevDecl (st : ExecutorState) (c : ConvertResult) :
    (mergeSideOutputs st c).prevDecl = st.prevDecl := by
  unfold mergeSideOutputs
  cases c.sideOutputs <;> rfl

theorem finishSuccess_true (st : ExecutorState) (c : ConvertResult) :
    (finishSuccess st c).2.2 = true := by
  simp only [finishSuccess]
  split
  · split <;> rfl
  · rfl

theorem mergeSideOutputs_cache (st : ExecutorState) (c : ConvertResult) :
    (mergeSideOutputs st c).cache =
      (match c.sideOutputs with
       | some outs => updateSideOutputs st.cache outs
       | none => st.cache) := by
  unfold mergeSideOutputs
  cases c.sideOutputs <;> rfl

/-! ### Claim theorems -/

/-- C10: `reset()` empties the Export Namespace (every subsequent binding
lookup misses) and clears the Declaration State to the empty text, while the
Module Cache's recorded source texts and cached compiled instances are left
unchanged. -/
theorem reset_clears_bindings_and_decl_only (st : ExecutorState) :
    (reset st).prevDecl = "" ∧
    (reset st).exports = ([] : ExportMap) ∧
    (∀ name, getProp (reset st).exports name = none) ∧
    (reset st).cache = st.cache :=
  ⟨rfl, rfl, fun _ => rfl, rfl⟩

/-- C7: the `defineProperty` trap on the Export Namespace always reports
success; defining the reserved `__esModule` marker leaves the namespace
unchanged, and defining any other name stores the descriptor's value (the
getter's result when a getter is present), overwriting any existing binding
of that name and touching no other binding. -/
theorem defineProperty_always_succeeds (ex : ExportMap) (p : String)
    (attrs : PropertyDescriptor) :
    (defineProperty ex p attrs).2 = true ∧
    (p = "__esModule" → (defineProperty ex p attrs).1 = ex) ∧
    (p ≠ "__esModule" →
      getProp (defineProperty ex p attrs).1 p = some (descriptorValue attrs) ∧
      ∀ q, q ≠ p → getProp (defineProperty ex p attrs).1 q = getProp ex q) := by
  by_cases h : p = "__esModule"
  · exact ⟨by simp [defineProperty, h], fun _ => by simp [defineProperty, h],
      fun hc => absurd h hc⟩
  · refine ⟨?_, fun hc => absurd hc h, fun _ => ⟨?_, fun q hq => ?_⟩⟩
    · cases hg : attrs.get <;> simp [defineProperty, h, hg]
    · cases hg : attrs.get <;>
        simp [defineProperty, h, hg, descriptorValue, getProp, setProp, mapGet_mapSet_self]
    · cases hg : attrs.get <;>
        simp [defineProperty, h, hg, getProp, setProp, mapGet_mapSet_ne _ _ _ _ hq]

/-- Witness for C7 at a concrete input: defining `x` with value `5` on the
empty namespace succeeds and stores the binding. -/
theorem defineProperty_always_succeeds_witness :
    (defineProperty ([] : ExportMap) "x" ⟨none, .num 5⟩).2 = true ∧
    getProp (defineProperty ([] : ExportMap) "x" ⟨none, .num 5⟩).1 "x" = some (.num 5) := by
  have h := defineProperty_always_succeeds ([] : ExportMap) "x" ⟨none, .num 5⟩
  exact ⟨h.1, by simpa [descriptorValue] using (h.2.2 (by decide)).1⟩

/-- C8: `interrupt()` is a total operation (it never throws, and the fired
promise already carries a suppressing handler); it fires exactly the
previously armed signal and immediately arms a fresh, un-fired one, so at
any time exactly one generation is armed, the initial state is well-formed,
and an execution started after the interrupt (racing the newly armed
generation) is untouched by it. -/
theorem interrupt_fires_and_rearms (c : CancellationController)
    (h : ControllerWF c) :
    ControllerWF (interrupt c) ∧
    ControllerWF initController ∧
    (interrupt c).generation = c.generation + 1 ∧
    c.generation ∈ (interrupt c).fired ∧
    ¬ (interrupt c).generation ∈ (interrupt c).fired ∧
    (∀ g, g ∈ (interrupt c).fired ↔ g ∈ c.fired ∨ g = c.generation) := by
  refine ⟨?_, ?_, rfl, ?_, ?_, ?_⟩
  · intro g hg
    simp only [interrupt, List.mem_cons] at hg
    rcases hg with h1 | h1
    · simp [interrupt, h1]
    · exact Nat.lt_succ_of_lt (h g h1)
  · intro g hg
    simp [initController] at hg
  · simp [interrupt]
  · intro hmem
    simp only [interrupt, List.mem_cons] at hmem
    rcases hmem with h1 | h1
    · omega
    · exact absurd (h _ h1) (by omega)
  · intro g
    simp only [interrupt, List.mem_cons]
    tauto

/-- Witness for C8 at a concrete controller with generation 2 and fired
generations 0 and 1. -/
theorem interrupt_fires_and_rearms_witness :
    ControllerWF { generation := 2, fired := [0, 1] } ∧
    ¬ (interrupt { generation := 2, fired := [0, 1] }).generation
        ∈ (interrupt { generation := 2, fired := [0, 1] }).fired := by
  have hwf : ControllerWF { generation := 2, fired := [0, 1] } := by
    intro g hg
    simp at hg
    rcases hg with rfl | rfl <;> decide
  exact ⟨hwf, (interrupt_fires_and_rearms _ hwf).2.2.2.2.1⟩

/-- C4: `execute` never propagates a fault: for every collaborator result
and every body behavior (throwing, rejecting, interrupted or resolving) it
produces a boolean outcome, and on every failing path the fault is reported
through the sink — the event list is nonempty and consists of error-channel
writes only. -/
theorem execute_normalizes_every_path (st : ExecutorState) (b : SnippetBehavior) :
    (execute st b).2.2 = true ∨
    ((execute st b).2.2 = false ∧ (execute st b).2.1 ≠ [] ∧
      ∀ ev ∈ (execute st b).2.1, ev.isErrorChannel = true) := by
  unfold execute
  by_cases h1 : strTruthy b.meta.module = true
  · left
    simp [h1]
  · by_cases h2 : b.meta.mode = .browser
    · left
      simp [h1, h2]
    · by_cases h3 : b.converted.diagnostics.length > 0
      · right
        have hne : b.converted.diagnostics ≠ [] := by
          intro hc
          simp [hc] at h3
        refine ⟨by simp [h1, h2, h3], by simp [h1, h2, h3, printDiagnostics, hne], ?_⟩
        intro ev hev
        simp only [h1, h2, h3] at hev
        simp only [Bool.not_eq_true] at h1
        simp [h1, if_pos h3, printDiagnostics, List.mem_map] at hev
        obtain ⟨d, _, rfl⟩ := hev
        rfl
      · by_cases h4 : strTruthy b.converted.output = true
        · rcases hrb : b.runBody (mergeSideOutputs st b.converted).exports with ⟨ex1, br⟩
          cases br with
          | throws e =>
            right
            refine ⟨?_, ?_, ?_⟩ <;>
              simp [h1, h2, h3, h4, hrb, OutputEvent.isErrorChannel]
          | ok =>
            by_cases h5 : b.converted.hasToplevelAwait = true
            · cases hao : b.asyncOutcome with
              | resolves eff =>
                left
                simp [h1, h2, h3, h4, hrb, h5, hao, finishSuccess_true]
              | rejects eff e =>
                right
                refine ⟨?_, ?_, ?_⟩ <;>
                  simp [h1, h2, h3, h4, hrb, h5, hao, OutputEvent.isErrorChannel]
              | interruptedFirst =>
                right
                refine ⟨?_, ?_, ?_⟩ <;>
                  simp [h1, h2, h3, h4, hrb, h5, hao, OutputEvent.isErrorChannel]
            · left
              simp [h1, h2, h3, h4, hrb, h5, finishSuccess_true]
        · left
          simp [h1, h2, h3, h4]

/-- C6: for a non-module node snippet whose compilation returns a non-empty
diagnostics list, `execute` writes each diagnostic to the error channel in
order, returns false, leaves the Declaration State and the Export Namespace
exactly as they were (no body runs), and still merges any side modules
returned alongside the diagnostics into the Module Cache. -/
theorem execute_diagnostics_fail (st : ExecutorState) (b : SnippetBehavior)
    (hmod : strTruthy b.meta.module = false)
    (hmode : b.meta.mode = .node)
    (hdiag : b.converted.diagnostics ≠ []) :
    (execute st b).2.2 = false ∧
    (execute st b).2.1 = printDiagnostics b.converted.diagnostics ∧
    (execute st b).1.prevDecl = st.prevDecl ∧
    (execute st b).1.exports = st.exports ∧
    (execute st b).1.cache =
      (match b.converted.sideOutputs with
       | some outs => updateSideOutputs st.cache outs
       | none => st.cache) := by
  have hlen : b.converted.diagnostics.length > 0 := List.length_pos.mpr hdiag
  have hbr : ¬ b.meta.mode = Mode.browser := by simp [hmode]
  refine ⟨?_, ?_, ?_, ?_, ?_⟩ <;>
    simp [execute, hmod, hbr, if_pos hlen, mergeSideOutputs_prevDecl,
      mergeSideOutputs_exports, mergeSideOutputs_cache]

/-- Concrete input for the C6 witness. -/
def c6State : ExecutorState :=
  { cache := ⟨[("/p/q.js", "old")], []⟩, prevDecl := "p", exports := [("a", .num 1)] }

/-- Concrete behavior for the C6 witness: one diagnostic alongside one side
output. -/
def c6Behavior : SnippetBehavior :=
  { meta := { module := none, mode := .node },
    addModuleDiags := [],
    converted :=
      { output := some "body",
        declOutput := some "d",
        diagnostics := [{ fileName := none, startLine := 0, startCharacter := 6,
                          messageText := "',' expected." }],
        sideOutputs := some [{ path := "/p/q.js", data := "new" }],
        hasToplevelAwait := false,
        lastExpressionVar := none },
    runBody := fun ex => (ex, .ok),
    asyncOutcome := .interruptedFirst }

/-- Witness for C6: diagnostics reported, failure returned, declaration and
bindings untouched, side output merged. -/
theorem execute_diagnostics_fail_witness :
    (execute c6State c6Behavior).2.2 = false ∧
    (execute c6State c6Behavior).2.1 = [.errDiag "1:7 - ',' expected."] ∧
    (execute c6State c6Behavior).1.prevDecl = "p" ∧
    mapGet (execute c6State c6Behavior).1.cache.sideOutputs "/p/q.js" = some "new" := by
  have h := execute_diagnostics_fail c6State c6Behavior rfl rfl (by decide)
  refine ⟨h.1, ?_, ?_, ?_⟩
  · rw [h.2.1]
    rfl
  · exact h.2.2.1.trans rfl
  · rw [h.2.2.2.2]
    rfl

/-- C2: for a snippet whose compiled body is marked as having a top-level
suspension, when the cancellation signal wins the race against the body's
deferred completion, `execute` returns false, writes exactly one
distinguished cancellation error to the error channel, writes nothing to
normal output, and does not advance the Declaration State. -/
theorem execute_interrupted_cancels (st : ExecutorState) (b : SnippetBehavior)
    (hmod : strTruthy b.meta.module = false)
    (hmode : b.meta.mode = .node)
    (hdiag : b.converted.diagnostics = [])
    (hout : strTruthy b.converted.output = true)
    (hbody : (b.runBody st.exports).2 = .ok)
    (hawait : b.converted.hasToplevelAwait = true)
    (hint : b.asyncOutcome = .interruptedFirst) :
    (execute st b).2.2 = false ∧
    (execute st b).2.1 = [.errVal interruptedError] ∧
    (∀ ev ∈ (execute st b).2.1, ev.isErrorChannel = true) ∧
    (execute st b).1.prevDecl = st.prevDecl := by
  have hex : (mergeSideOutputs st b.converted).exports = st.exports :=
    mergeSideOutputs_exports st b.converted
  have hbr : ¬ b.meta.mode = Mode.browser := by simp [hmode]
  rcases hrb : b.runBody st.exports with ⟨ex1, br⟩
  have hbrok : br = .ok := by
    rw [hrb] at hbody
    exact hbody
  subst hbrok
  refine ⟨?_, ?_, ?_, ?_⟩ <;>
    simp [execute, hmod, hbr, hdiag, hout, hex, hrb, hawait, hint,
      mergeSideOutputs_prevDecl, OutputEvent.isErrorChannel]

/-- Concrete input for the C2 witness. -/
def c2State : ExecutorState :=
  { cache := ⟨[], []⟩, prevDecl := "prev", exports := [] }

/-- Concrete behavior for the C2 witness: a top-level-await body whose race
is won by the cancellation signal. -/
def c2Behavior : SnippetBehavior :=
  { meta := { module := none, mode := .node },
    addModuleDiags := [],
    converted := { output := some "body", declOutput := some "next", diagnostics := [],
                   sideOutputs := none, hasToplevelAwait := true,
                   lastExpressionVar := none },
    runBody := fun ex => (ex, .ok),
    asyncOutcome := .interruptedFirst }

/-- Witness for C2: the interrupted execution fails with exactly the one
cancellation error and keeps the previous declaration text. -/
theorem execute_interrupted_cancels_witness :
    (execute c2State c2Behavior).2.2 = false ∧
    (execute c2State c2Behavior).2.1 = [.errVal interruptedError] ∧
    (execute c2State c2Behavior).1.prevDecl = "prev" := by
  have h := execute_interrupted_cancels c2State c2Behavior rfl rfl rfl rfl rfl rfl rfl
  exact ⟨h.1, h.2.1, h.2.2.2.trans rfl⟩

/-- Concrete input for the C1 counterexample. -/
def c1State : ExecutorState :=
  { cache := ⟨[], []⟩, prevDecl := "old decl", exports := [] }

/-- Concrete behavior for the C1 counterexample: clean compilation with a
declaration output, body throws synchronously. -/
def c1Behavior : SnippetBehavior :=
  { meta := { module := none, mode := .node },
    addModuleDiags := [],
    converted := { output := some "body", declOutput := some "new decl", diagnostics := [],
                   sideOutputs := none, hasToplevelAwait := false,
                   lastExpressionVar := none },
    runBody := fun ex => (ex, .throws (.str "boom")),
    asyncOutcome := .interruptedFirst }

/-- C1 counterexample: a snippet compiles cleanly with declaration output
`new decl`, its body throws at runtime; the claim asserts the Declaration
State is still updated with the compiler's declaration output, but `execute`
returns false with the error reported and the Declaration State still at its
previous committed value `old decl`. -/
theorem execute_throw_decl_not_merged_cex :
    (execute c1State c1Behavior).2.2 = false ∧
    (execute c1State c1Behavior).2.1 = [.errVal (.str "boom")] ∧
    c1Behavior.converted.declOutput.getD "" = "new decl" ∧
    (execute c1State c1Behavior).1.prevDecl = "old decl" ∧
    ¬ (execute c1State c1Behavior).1.prevDecl
        = c1Behavior.converted.declOutput.getD "" := by
  refine ⟨rfl, rfl, rfl, rfl, ?_⟩
  decide

/-- C1 (amended): if the body fails at runtime — throwing synchronously
during invocation, or its awaited top-level completion rejecting — then
`execute` reports the error to the error channel and returns false, and the
Declaration State is left at its previous committed value: the compiler's
declaration output is not merged on a runtime failure. -/
theorem execute_runtime_failure_preserves_decl (st : ExecutorState) (b : SnippetBehavior)
    (hmod : strTruthy b.meta.module = false)
    (hmode : b.meta.mode = .node)
    (hdiag : b.converted.diagnostics = [])
    (hout : strTruthy b.converted.output = true)
    (hfail : (∃ ex1 e, b.runBody st.exports = (ex1, BodyResult.throws e)) ∨
             ((b.runBody st.exports).2 = BodyResult.ok ∧
              b.converted.hasToplevelAwait = true ∧
              ∃ eff e, b.asyncOutcome = AsyncOutcome.rejects eff e)) :
    (execute st b).2.2 = false ∧
    (execute st b).1.prevDecl = st.prevDecl ∧
    ∃ e, (execute st b).2.1 = [.errVal e] := by
  have hex : (mergeSideOutputs st b.converted).exports = st.exports :=
    mergeSideOutputs_exports st b.converted
  have hbr : ¬ b.meta.mode = Mode.browser := by simp [hmode]
  rcases hfail with ⟨ex1, e, hrb⟩ | ⟨hok, hawait, eff, e, hao⟩
  · refine ⟨?_, ?_, ⟨e, ?_⟩⟩ <;>
      simp [execute, hmod, hbr, hdiag, hout, hex, hrb, mergeSideOutputs_prevDecl]
  · rcases hrb : b.runBody st.exports with ⟨ex1, br⟩
    have hbrok : br = .ok := by
      rw [hrb] at hok
      exact hok
    subst hbrok
    refine ⟨?_, ?_, ⟨e, ?_⟩⟩ <;>
      simp [execute, hmod, hbr, hdiag, hout, hex, hrb, hawait, hao,
        mergeSideOutputs_prevDecl]

/-- Witness for the amended C1, applying it to the synchronously throwing
counterexample input. -/
theorem execute_runtime_failure_preserves_decl_witness :
    (execute c1State c1Behavior).2.2 = false ∧
    (execute c1State c1Behavior).1.prevDecl = "old decl" := by
  have h := execute_runtime_failure_preserves_decl c1State c1Behavior rfl rfl rfl rfl
    (Or.inl ⟨[], .str "boom", rfl⟩)
  exact ⟨h.1, h.2.1.trans rfl⟩

theorem finishSuccess_spec (st : ExecutorState) (c : ConvertResult)
    (hvar : strTruthy c.lastExpressionVar = true) :
    (finishSuccess st c).2.2 = true ∧
    (finishSuccess st c).1.prevDecl = c.declOutput.getD "" ∧
    (((getProp st.exports (c.lastExpressionVar.getD "")).getD .undefined).isNullish = true →
      (finishSuccess st c).2.1 = [] ∧ (finishSuccess st c).1.exports = st.exports) ∧
    (((getProp st.exports (c.lastExpressionVar.getD "")).getD .undefined).isNullish = false →
      (finishSuccess st c).2.1 =
        [.log ((getProp st.exports (c.lastExpressionVar.getD "")).getD .undefined)] ∧
      (finishSuccess st c).1.exports =
        deleteProp st.exports (c.lastExpressionVar.getD "")) := by
  by_cases hn :
      ((getProp st.exports (c.lastExpressionVar.getD "")).getD .undefined).isNullish = true
  · refine ⟨?_, ?_, fun _ => ⟨?_, ?_⟩, fun hc => absurd hn (by simp [hc])⟩ <;>
      simp [finishSuccess, hvar, hn]
  · refine ⟨?_, ?_, fun hc => absurd hc hn, fun _ => ⟨?_, ?_⟩⟩ <;>
      simp [finishSuccess, hvar, hn]

/-- Concrete input for the C5 counterexample. -/
def c5State : ExecutorState :=
  { cache := ⟨[], []⟩, prevDecl := "", exports := [] }

/-- Concrete behavior for the C5 counterexample: the body binds the
trailing-expression variable `v` to `null` (the "nothing" sentinel). -/
def c5Behavior : SnippetBehavior :=
  { meta := { module := none, mode := .node },
    addModuleDiags := [],
    converted := { output := some "body", declOutput := some "d", diagnostics := [],
                   sideOutputs := none, hasToplevelAwait := false,
                   lastExpressionVar := some "v" },
    runBody := fun ex => (setProp ex "v" .null, .ok),
    asyncOutcome := .interruptedFirst }

/-- C5 counterexample: a successful execution names trailing-expression
binding `v` whose value is the sentinel; the claim asserts the binding is
removed whether or not the value is the sentinel, but the code leaves the
binding in place (it is still `null`, not absent), writing nothing. -/
theorem execute_trailing_sentinel_kept_cex :
    (execute c5State c5Behavior).2.2 = true ∧
    strTruthy c5Behavior.converted.lastExpressionVar = true ∧
    getProp (execute c5State c5Behavior).1.exports "v" = some JSValue.null ∧
    ¬ getProp (execute c5State c5Behavior).1.exports "v" = none ∧
    (execute c5State c5Behavior).2.1 = [] := by
  refine ⟨rfl, rfl, rfl, ?_, rfl⟩
  decide

/-- C5 (amended): for every successful execution naming a
trailing-expression binding, `execute` reads that binding's current value
from the Export Namespace and — if and only if the value is not the
"nothing" sentinel — removes the binding and writes exactly that value once
to the normal-output channel; when the value is the sentinel the binding is
left in place and nothing is written. -/
theorem execute_trailing_capture (st : ExecutorState) (b : SnippetBehavior)
    (ex1 finalEx : ExportMap)
    (hmod : strTruthy b.meta.module = false)
    (hmode : b.meta.mode = .node)
    (hdiag : b.converted.diagnostics = [])
    (hout : strTruthy b.converted.output = true)
    (hbody : b.runBody st.exports = (ex1, BodyResult.ok))
    (hfin : (b.converted.hasToplevelAwait = false ∧ finalEx = ex1) ∨
            (b.converted.hasToplevelAwait = true ∧
             ∃ eff, b.asyncOutcome = AsyncOutcome.resolves eff ∧ finalEx = eff ex1))
    (hvar : strTruthy b.converted.lastExpressionVar = true) :
    (execute st b).2.2 = true ∧
    (((getProp finalEx (b.converted.lastExpressionVar.getD "")).getD .undefined).isNullish
        = true →
      (execute st b).2.1 = [] ∧ (execute st b).1.exports = finalEx) ∧
    (((getProp finalEx (b.converted.lastExpressionVar.getD "")).getD .undefined).isNullish
        = false →
      (execute st b).2.1 =
        [.log ((getProp finalEx (b.converted.lastExpressionVar.getD "")).getD .undefined)] ∧
      (execute st b).1.exports =
        deleteProp finalEx (b.converted.lastExpressionVar.getD "")) := by
  have hex : (mergeSideOutputs st b.converted).exports = st.exports :=
    mergeSideOutputs_exports st b.converted
  have hbr : ¬ b.meta.mode = Mode.browser := by simp [hmode]
  have hred : execute st b
      = finishSuccess { mergeSideOutputs st b.converted with exports := finalEx }
          b.converted := by
    rcases hfin with ⟨hta, rfl⟩ | ⟨hta, eff, hao, rfl⟩
    · simp [execute, hmod, hbr, hdiag, hout, hex, hbody, hta]
    · simp [execute, hmod, hbr, hdiag, hout, hex, hbody, hta, hao]
  have hspec :=
    finishSuccess_spec { mergeSideOutputs st b.converted with exports := finalEx }
      b.converted hvar
  rw [hred]
  exact ⟨hspec.1, hspec.2.2.1, hspec.2.2.2⟩

/-- Concrete input for the C5 witness. -/
def c5wState : ExecutorState :=
  { cache := ⟨[], []⟩, prevDecl := "", exports := [] }

/-- Concrete behavior for the C5 witness: the body binds the
trailing-expression variable `v` to `42`. -/
def c5wBehavior : SnippetBehavior :=
  { meta := { module := none, mode := .node },
    addModuleDiags := [],
    converted := { output := some "body", declOutput := some "d", diagnostics := [],
                   sideOutputs := none, hasToplevelAwait := false,
                   lastExpressionVar := some "v" },
    runBody := fun ex => (setProp ex "v" (.num 42), .ok),
    asyncOutcome := .interruptedFirst }

/-- Witness for the amended C5: the non-sentinel value 42 is displayed once
and its binding removed. -/
theorem execute_trailing_capture_witness :
    (execute c5wState c5wBehavior).2.2 = true ∧
    (execute c5wState c5wBehavior).2.1 = [.log (.num 42)] ∧
    getProp (execute c5wState c5wBehavior).1.exports "v" = none := by
  have h := execute_trailing_capture c5wState c5wBehavior
    (setProp ([] : ExportMap) "v" (.num 42)) (setProp ([] : ExportMap) "v" (.num 42))
    rfl rfl rfl rfl rfl (Or.inl ⟨rfl, rfl⟩) rfl
  have h2 := h.2.2 (by decide)
  refine ⟨h.1, ?_, ?_⟩
  · rw [h2.1]
    rfl
  · rw [h2.2]
    decide

theorem cacheInv_updateSideOutput1 (st : ModuleCacheState) (out : SideOutput)
    (h : CacheInv st) : CacheInv (updateSideOutput1 st out) := by
  intro p m hp
  simp only [updateSideOutput1] at hp ⊢
  by_cases hpp : p = out.path
  · rw [hpp, mapGet_mapDelete_self] at hp
    cases hp
  · rw [mapGet_mapDelete_ne _ _ _ hpp] at hp
    rw [mapGet_mapSet_ne _ _ _ _ hpp]
    exact h p m hp

theorem cacheInv_updateSideOutputs (st : ModuleCacheState) (outs : List SideOutput)
    (h : CacheInv st) : CacheInv (updateSideOutputs st outs) := by
  induction outs generalizing st with
  | nil => exact h
  | cons out rest ih =>
    exact ih (updateSideOutput1 st out) (cacheInv_updateSideOutput1 st out h)

theorem requireFromSideOutputs_cached (env : RequireEnv) (dirname : String)
    (st : ModuleCacheState) (id : String) (m : NodeModuleInst)
    (h : mapGet st.sideModules (resolveFilename env dirname id) = some m) :
    requireFromSideOutputs env dirname st id = (st, m.exports) := by
  simp [requireFromSideOutputs, h]

theorem requireFromSideOutputs_compiles_current (env : RequireEnv) (dirname : String)
    (st : ModuleCacheState) (id src : String)
    (hm : mapGet st.sideModules (resolveFilename env dirname id) = none)
    (ho : mapGet st.sideOutputs (resolveFilename env dirname id) = some src) :
    requireFromSideOutputs env dirname st id =
      (ModuleCacheState.mk st.sideOutputs
        (mapSet st.sideModules (resolveFilename env dirname id)
          (NodeModuleInst.mk src (env.compileModule src))),
       env.compileModule src) := by
  simp [requireFromSideOutputs, hm, ho]

theorem cacheInv_requireFromSideOutputs (env : RequireEnv) (dirname : String)
    (st : ModuleCacheState) (id : String) (h : CacheInv st) :
    CacheInv (requireFromSideOutputs env dirname st id).1 := by
  cases hm : mapGet st.sideModules (resolveFilename env dirname id) with
  | some cached =>
    rw [requireFromSideOutputs_cached env dirname st id cached hm]
    exact h
  | none =>
    cases ho : mapGet st.sideOutputs (resolveFilename env dirname id) with
    | none =>
      have : requireFromSideOutputs env dirname st id = (st, .null) := by
        simp [requireFromSideOutputs, hm, ho]
      rw [this]
      exact h
    | some src =>
      rw [requireFromSideOutputs_compiles_current env dirname st id src hm ho]
      intro p m hp
      by_cases hpp : p = resolveFilename env dirname id
      · subst hpp
        rw [mapGet_mapSet_self] at hp
        cases hp
        simpa using ho
      · rw [mapGet_mapSet_ne _ _ _ _ hpp] at hp
        exact h p m hp

theorem requireFromSideOutputs_idem (env : RequireEnv) (dirname : String)
    (st : ModuleCacheState) (id : String) :
    requireFromSideOutputs env dirname (requireFromSideOutputs env dirname st id).1 id
      = requireFromSideOutputs env dirname st id := by
  cases hm : mapGet st.sideModules (resolveFilename env dirname id) with
  | some cached =>
    rw [requireFromSideOutputs_cached env dirname st id cached hm,
      requireFromSideOutputs_cached env dirname st id cached hm]
  | none =>
    cases ho : mapGet st.sideOutputs (resolveFilename env dirname id) with
    | none =>
      have h1 : requireFromSideOutputs env dirname st id = (st, .null) := by
        simp [requireFromSideOutputs, hm, ho]
      rw [h1, h1]
    | some src =>
      rw [requireFromSideOutputs_compiles_current env dirname st id src hm ho]
      rw [requireFromSideOutputs_cached env dirname _ id
        { compiledFrom := src, exports := env.compileModule src } (mapGet_mapSet_self _ _ _)]

/-- C3: coherence of the Module Cache. The empty cache is coherent; merging
side outputs and importing through `requireFromSideOutputs` preserve the
invariant that every cached compiled instance was compiled from the
currently recorded source text for its path; recording new source for a
path drops the cached instance and overwrites the stored source (so the
next import recompiles); and between overwrites repeated imports of the
same path return the exports of the single cached instance: a cache hit
returns the cached exports with the state unchanged, and a repeated import
returns exactly what the first returned. -/
theorem moduleCache_coherence (st : ModuleCacheState) (out : SideOutput)
    (env : RequireEnv) (dirname id : String) (h : CacheInv st) :
    CacheInv ⟨[], []⟩ ∧
    (∀ outs, CacheInv (updateSideOutputs st outs)) ∧
    CacheInv (requireFromSideOutputs env dirname st id).1 ∧
    mapGet (updateSideOutput1 st out).sideModules out.path = none ∧
    mapGet (updateSideOutput1 st out).sideOutputs out.path = some out.data ∧
    (∀ m, mapGet st.sideModules (resolveFilename env dirname id) = some m →
      requireFromSideOutputs env dirname st id = (st, m.exports)) ∧
    requireFromSideOutputs env dirname (requireFromSideOutputs env dirname st id).1 id
      = requireFromSideOutputs env dirname st id := by
  refine ⟨?_, fun outs => cacheInv_updateSideOutputs st outs h,
    cacheInv_requireFromSideOutputs env dirname st id h,
    mapGet_mapDelete_self _ _, mapGet_mapSet_self _ _ _,
    fun m hm => requireFromSideOutputs_cached env dirname st id m hm,
    requireFromSideOutputs_idem env dirname st id⟩
  intro p m hp
  simp [mapGet] at hp

/-- Concrete input for the C3 witness: one recorded source with its cached
compiled instance. -/
def c3Cache : ModuleCacheState :=
  { sideOutputs := [("/a/b.js", "old src")],
    sideModules := [("/a/b.js", { compiledFrom := "old src", exports := .obj 1 })] }

/-- Concrete environment for the C3 witness. -/
def c3Env : RequireEnv :=
  { normalizeJoin := fun d i => d ++ "/" ++ i, compileModule := fun _ => .obj 2 }

/-- Witness for C3: on a coherent concrete cache, overwriting the source for
the path drops the compiled instance and stores the new source, and a cache
hit returns the cached exports unchanged. -/
theorem moduleCache_coherence_witness :
    mapGet (updateSideOutput1 c3Cache { path := "/a/b.js", data := "new src" }).sideModules
      "/a/b.js" = none ∧
    mapGet (updateSideOutput1 c3Cache { path := "/a/b.js", data := "new src" }).sideOutputs
      "/a/b.js" = some "new src" ∧
    requireFromSideOutputs c3Env "/a" c3Cache "b" = (c3Cache, .obj 1) := by
  have hinv : CacheInv c3Cache := by
    intro p m hp
    simp only [c3Cache, mapGet] at hp ⊢
    by_cases hpp : "/a/b.js" = p
    · rw [if_pos hpp] at hp
      cases hp
      rw [if_pos hpp]
    · rw [if_neg hpp] at hp
      cases hp
  have h := moduleCache_coherence c3Cache { path := "/a/b.js", data := "new src" }
    c3Env "/a" "b" hinv
  refine ⟨h.2.2.2.1, h.2.2.2.2.1, ?_⟩
  exact h.2.2.2.2.2.1 { compiledFrom := "old src", exports := .obj 1 } (by decide)

/-- Concrete environment for the C9 counterexample: the recorded side
module compiles to an exports value of `null` (`module.exports = null;`). -/
def c9Env : RequireEnv :=
  { normalizeJoin := fun d i => d ++ "/" ++ i, compileModule := fun _ => .null }

/-- Concrete cache for the C9 counterexample: source text is recorded for
the resolved path. -/
def c9Cache : ModuleCacheState :=
  { sideOutputs := [("/r/m.js", "module.exports = null;")], sideModules := [] }

/-- C9 counterexample: side-module source is recorded for the resolved path
`/r/m.js`, yet the wrapped `require` still delegates to the host `require`,
because the compiled module's exports value is falsy and the trap's `if
(mod)` test fails; the claim's "only if no side-module source is recorded"
is violated. -/
theorem require_falsy_exports_cex :
    mapGet c9Cache.sideOutputs (resolveFilename c9Env "/r" "m") =
      some "module.exports = null;" ∧
    (requireApplySingle c9Env "/r" c9Cache "m").2 = .host "m" := by
  exact ⟨rfl, rfl⟩

/-- C9 (amended): resolution of a single-specifier call through the wrapped
`require` proceeds in the fixed order: the literal `tslab` specifier returns
the engine's own interface directly; otherwise the specifier is joined to
the importing directory, with the default `.js` extension appended exactly
when the joined path has no extension, and looked up among the recorded
side modules (cached instance first, then recorded source); the original
host `require` is invoked unchanged with the same argument exactly when
that lookup yields a falsy value — in particular whenever no instance is
cached and no side-module source is recorded for the path, but also when
the resolved module's exports value is itself falsy. -/
theorem requireApplySingle_resolution (env : RequireEnv) (dirname : String)
    (st : ModuleCacheState) (arg : String) :
    (arg = "tslab" → requireApplySingle env dirname st arg = (st, .tslabExports)) ∧
    (extname (env.normalizeJoin dirname arg) = "" →
      resolveFilename env dirname arg = env.normalizeJoin dirname arg ++ ".js") ∧
    (¬ extname (env.normalizeJoin dirname arg) = "" →
      resolveFilename env dirname arg = env.normalizeJoin dirname arg) ∧
    (¬ arg = "tslab" →
      (mapGet st.sideModules (resolveFilename env dirname arg) = none →
        mapGet st.sideOutputs (resolveFilename env dirname arg) = none →
        requireApplySingle env dirname st arg = (st, .host arg)) ∧
      (∀ m, mapGet st.sideModules (resolveFilename env dirname arg) = some m →
        m.exports.truthy = true →
        requireApplySingle env dirname st arg = (st, .value m.exports)) ∧
      (∀ src, mapGet st.sideModules (resolveFilename env dirname arg) = none →
        mapGet st.sideOutputs (resolveFilename env dirname arg) = some src →
        (env.compileModule src).truthy = true →
        (requireApplySingle env dirname st arg).2 = .value (env.compileModule src)) ∧
      ((requireApplySingle env dirname st arg).2 = .host arg →
        (requireFromSideOutputs env dirname st arg).2.truthy = false)) := by
  refine ⟨fun ht => by simp [requireApplySingle, ht], fun he => ?_, fun he => ?_, fun ht => ?_⟩
  · simp [resolveFilename, he]
  · simp [resolveFilename, he]
  · refine ⟨fun hm ho => ?_, fun m hm htr => ?_, fun src hm ho htr => ?_, fun hh => ?_⟩
    · have hr : requireFromSideOutputs env dirname st arg = (st, .null) := by
        simp [requireFromSideOutputs, hm, ho]
      simp [requireApplySingle, ht, hr, JSValue.truthy]
    · rw [requireApplySingle, if_neg ht]
      simp [requireFromSideOutputs_cached env dirname st arg m hm, htr]
    · rw [requireApplySingle, if_neg ht]
      simp [requireFromSideOutputs_compiles_current env dirname st arg src hm ho, htr]
    · rw [requireApplySingle, if_neg ht] at hh
      by_cases htr : (requireFromSideOutputs env dirname st arg).2.truthy = true
      · simp [htr] at hh
      · simpa using htr

/-- Concrete environment for the C9 witness: generated modules compile to a
truthy (object) exports value. -/
def c9wEnv : RequireEnv :=
  { normalizeJoin := fun d i => d ++ "/" ++ i, compileModule := fun _ => .obj 7 }

/-- Concrete cache for the C9 witness: no recorded modules at all. -/
def c9wCache : ModuleCacheState := { sideOutputs := [], sideModules := [] }

/-- Witness for the amended C9: the `tslab` shortcut fires, and with nothing
recorded the host `require` receives the unchanged argument. -/
theorem requireApplySingle_resolution_witness :
    requireApplySingle c9wEnv "/r" c9wCache "tslab" = (c9wCache, .tslabExports) ∧
    requireApplySingle c9wEnv "/r" c9wCache "m" = (c9wCache, .host "m") := by
  have h1 := (requireApplySingle_resolution c9wEnv "/r" c9wCache "tslab").1 rfl
  have h2 := ((requireApplySingle_resolution c9wEnv "/r" c9wCache "m").2.2.2
    (by decide)).1 rfl rfl
  exact ⟨h1, h2⟩

end Executor
